import Mathlib

/-!
Verification of the chat-backend message/presence subsystem.

Shallow embedding of the core of the `chat-backend` repository:
the conversation/message persistence operations of
`src/routes/messageRoutes.js`, the Mongoose data model of
`src/models/Conversation.js` / `src/models/Message.js`, and the in-memory
presence registry and realtime relay of `src/server.js`.

Modelling conventions:
* Mongo ObjectIds and user ids are modelled as `Nat`; a single fresh-id
  counter `Store.nextId` stands in for id generation.
* `Date` values are modelled as a `Nat` tick supplied by the caller
  (`now`), standing in for `Date.now` / `new Date()`.
* Collections are modelled as Lean lists in insertion order;
  `Model.findOne(q)` is `List.find?` (first document matching `q`),
  `Model.updateMany(q, u)` is a `List.map` applying `u` to documents
  matching `q`, mirroring Mongo semantics on a single collection.
* The Mongo query `participants: { $all: [a, b] }` matches a document
  whose `participants` array CONTAINS both `a` and `b` (supersets
  match too); it is embedded as such, not as set equality.
* Fields irrelevant to the verified properties (`messageType`, the
  `timestamps` pairs, the group-chat metadata `isGroup`/`groupName`/
  `groupAdmin`, user profile projections used by `populate`) are omitted;
  no claim mentions them.  `populate` replaces ids by profile projections
  fetched from the external user collection and does not change which
  message documents are returned nor their `isRead`/id fields, so the
  response of a route is modelled as the list of message documents.
-/

/-- A document of the `messages` collection (`src/models/Message.js`). -/
@[ext]
structure Msg where
  id : Nat
  senderId : Nat
  receiverId : Nat
  message : String
  conversationId : Nat
  isRead : Bool
  deriving DecidableEq, Repr

/-- A document of the `conversations` collection
(`src/models/Conversation.js`).  `messages` is the ordered list of
message ids, `lastMessage` the denormalized pointer to the most recent
message, `lastMessageTime` the last-activity timestamp. -/
@[ext]
structure Conversation where
  id : Nat
  participants : List Nat
  messages : List Nat
  lastMessage : Option Nat
  lastMessageTime : Nat
  deriving DecidableEq, Repr

/-- The persistent store: the two collections the core mutates, plus the
fresh-id counter standing in for Mongo id generation. -/
@[ext]
structure Store where
  conversations : List Conversation
  messages : List Msg
  nextId : Nat
  deriving DecidableEq, Repr

/-- JS `String.prototype.trim()`: strip whitespace from both ends.
(Defined over the character list so that it evaluates by kernel
reduction; Lean's own `String.trim` goes through `Substring` functions
that do not.) -/
def jsTrim (s : String) : String :=
  ⟨((s.data.dropWhile Char.isWhitespace).reverse.dropWhile
      Char.isWhitespace).reverse⟩

/-- The query `participants: { $all: [a, b] }` used by both the thread
fetch and the send route: the participants array contains both ids. -/
def matchesAll (c : Conversation) (a b : Nat) : Bool :=
  c.participants.contains a && c.participants.contains b

/-- Embeds `Conversation.findOne({ participants: { $all: [a, b] } })`:
first conversation whose participants contain both `a` and `b`. -/
def findConversation (st : Store) (a b : Nat) : Option Conversation :=
  st.conversations.find? (fun c => matchesAll c a b)

/-- Embeds `conversation.save()` after mutating a fetched document: replaces the
stored conversation carrying the same id. -/
def saveConversation (st : Store) (c : Conversation) : Store :=
  { st with conversations :=
      st.conversations.map (fun x => if x.id = c.id then c else x) }

/-- Outcome of `POST /api/message/send/:id`. -/
inductive SendResult where
  /-- Status 400, "Message content is required". -/
  | validationError
  /-- Status 201 with the created message. -/
  | ok (msg : Msg)
  deriving DecidableEq, Repr

/-- HTTP status the send route responds with. -/
def SendResult.status : SendResult → Nat
  | .validationError => 400
  | .ok _ => 201

/-- Embeds `router.post("/send/:id")` of `src/routes/messageRoutes.js`:
validates the body, finds or creates the conversation for the pair
(`$all` containment query), persists the new message, then appends its id
to the conversation, sets `lastMessage` and `lastMessageTime`, and saves.
`message = none` models a request body without a `message` field (the
JS guard `!message` also catches the empty string, whose trim is empty). -/
def sendMessage (st : Store) (senderId receiverId : Nat)
    (message : Option String) (now : Nat) : SendResult × Store :=
  match message with
  | none => (SendResult.validationError, st)
  | some body =>
    if jsTrim body = "" then (SendResult.validationError, st)
    else
      let found := findConversation st senderId receiverId
      let conv : Conversation :=
        match found with
        | some c => c
        | none => ⟨st.nextId, [senderId, receiverId], [], none, now⟩
      let st1 : Store :=
        match found with
        | some _ => st
        | none => { st with conversations := st.conversations ++ [conv],
                            nextId := st.nextId + 1 }
      let newMessage : Msg :=
        ⟨st1.nextId, senderId, receiverId, jsTrim body, conv.id, false⟩
      let st2 : Store :=
        { st1 with messages := st1.messages ++ [newMessage],
                   nextId := st1.nextId + 1 }
      let conv2 : Conversation :=
        { conv with messages := conv.messages ++ [newMessage.id],
                    lastMessage := some newMessage.id,
                    lastMessageTime := now }
      (SendResult.ok newMessage, saveConversation st2 conv2)

/-- Embeds `router.get("/:id")` of `src/routes/messageRoutes.js`: fetch the
thread between the authenticated viewer and `:id`.  Returns 200 with `[]`
when no conversation matches; otherwise returns the conversation's
populated messages (taken from the store as it was BEFORE the
`updateMany`) and marks as read every message of that conversation sent
by the other user to the viewer that was still unread. -/
def fetchThread (st : Store) (viewerId otherId : Nat) :
    List Msg × Store :=
  match findConversation st viewerId otherId with
  | none => ([], st)
  | some conv =>
      let response :=
        conv.messages.filterMap
          (fun mid => st.messages.find? (fun m => m.id = mid))
      let st' : Store :=
        { st with messages := st.messages.map (fun m =>
            if m.conversationId = conv.id && m.senderId = otherId &&
               m.receiverId = viewerId && m.isRead = false
            then { m with isRead := true } else m) }
      (response, st')

/-- Outcome of `DELETE /api/message/:messageId`. -/
inductive DeleteResult where
  /-- Status 404, "Message not found". -/
  | notFound
  /-- Status 403, "Not authorized to delete this message". -/
  | forbidden
  /-- Status 200, "Message deleted successfully". -/
  | ok
  deriving DecidableEq, Repr

/-- HTTP status the delete route responds with. -/
def DeleteResult.status : DeleteResult → Nat
  | .notFound => 404
  | .forbidden => 403
  | .ok => 200

/-- Embeds `router.delete("/:messageId")` of `src/routes/messageRoutes.js`:
404 if the message does not exist, 403 if the requester is not its
sender; otherwise deletes the message document and `$pull`s its id from
the owning conversation's `messages` list. -/
def deleteMessage (st : Store) (messageId userId : Nat) :
    DeleteResult × Store :=
  match st.messages.find? (fun m => m.id = messageId) with
  | none => (DeleteResult.notFound, st)
  | some m =>
    if m.senderId ≠ userId then (DeleteResult.forbidden, st)
    else
      let st1 : Store :=
        { st with messages := st.messages.filter (fun x => x.id ≠ messageId) }
      let st2 : Store :=
        { st1 with conversations := st1.conversations.map (fun c =>
            if c.id = m.conversationId
            then { c with messages := c.messages.filter (fun i => i ≠ messageId) }
            else c) }
      (DeleteResult.ok, st2)

/-- Embeds `router.put("/read/:conversationId")` of `src/routes/messageRoutes.js`:
`Message.updateMany({conversationId, receiverId, isRead: false},
{isRead: true})`.  Always responds 200. -/
def markRead (st : Store) (conversationId userId : Nat) : Store :=
  { st with messages := st.messages.map (fun m =>
      if m.conversationId = conversationId && m.receiverId = userId &&
         m.isRead = false
      then { m with isRead := true } else m) }

/-! Presence registry and realtime relay (`src/server.js`).

`userSocketMap` is a JS object `{userId: socketId}`: keys are unique,
assignment to an existing key overwrites in place, a new key is appended,
and `Object.entries`/`Object.keys` enumerate in insertion order.  It is
embedded as an association list `List (Nat × Nat)` of
(userId, socketId) pairs with those exact semantics. -/

/-- The in-memory presence registry `userSocketMap`. -/
abbrev Registry := List (Nat × Nat)

/-- Embeds `userSocketMap[userId] = socket.id`: overwrite in place if the key
exists, else append. -/
def register (m : Registry) (userId socketId : Nat) : Registry :=
  if m.any (fun p => p.1 = userId)
  then m.map (fun p => if p.1 = userId then (userId, socketId) else p)
  else m ++ [(userId, socketId)]

/-- The connect handler's guard: register only when the handshake query
carried a user id (`userId && userId !== "undefined"`); an absent or
sentinel id is modelled as `none`. -/
def handleConnect (m : Registry) (userId : Option Nat) (socketId : Nat) :
    Registry :=
  match userId with
  | some u => register m u socketId
  | none => m

/-- Embeds `userSocketMap[receiverId]` (also the helper `getReceiverSocketId`):
pure lookup by user id. -/
def lookup (m : Registry) (userId : Nat) : Option Nat :=
  (m.find? (fun p => p.1 = userId)).map (fun p => p.2)

/-- The disconnect handler: scan `Object.entries(userSocketMap)` and
`delete` the first entry whose socket id equals the closing socket's,
then `break`. -/
def unregister : Registry → Nat → Registry
  | [], _ => []
  | p :: rest, socketId =>
      if p.2 = socketId then rest else p :: unregister rest socketId

/-- Embeds `Object.keys(userSocketMap)`: the broadcast online-user snapshot. -/
def snapshot (m : Registry) : List Nat := m.map (fun p => p.1)

/-- Payload of the relayed `typing` event: `{senderId, isTyping}`. -/
@[ext]
structure TypingPayload where
  senderId : Nat
  isTyping : Bool
  deriving DecidableEq, Repr

/-- Payload of the relayed `messageRead` event: `{messageId, readBy}`. -/
@[ext]
structure ReadReceiptPayload where
  messageId : Nat
  readBy : Nat
  deriving DecidableEq, Repr

/-- Embeds `socket.on("typing")`: look up the receiver's socket; if present,
emit `{senderId, isTyping}` to that socket only (`some (socket, payload)`),
else do nothing.  The handler touches neither the store nor the
registry, which the result therefore returns unchanged. -/
def handleTyping (st : Store) (m : Registry)
    (senderId receiverId : Nat) (isTyping : Bool) :
    Option (Nat × TypingPayload) × Store × Registry :=
  match lookup m receiverId with
  | none => (none, st, m)
  | some sid => (some (sid, ⟨senderId, isTyping⟩), st, m)

/-- Embeds `socket.on("messageRead")`: look up the ORIGINAL SENDER's socket; if
present, emit `{messageId, readBy}` to that socket only, else do
nothing.  Touches neither the store nor the registry. -/
def handleMessageRead (st : Store) (m : Registry)
    (senderId messageId readBy : Nat) :
    Option (Nat × ReadReceiptPayload) × Store × Registry :=
  match lookup m senderId with
  | none => (none, st, m)
  | some sid => (some (sid, ⟨messageId, readBy⟩), st, m)

/-- Iterated send: perform one `sendMessage` per body, threading the
store (each request observes the store left by the previous one). -/
def sendN (st : Store) (senderId receiverId : Nat) (now : Nat) :
    List String → Store
  | [] => st
  | b :: rest =>
      sendN (sendMessage st senderId receiverId (some b) now).2
        senderId receiverId now rest

/-! Helper lemmas about the presence registry. -/

/-- Registering a user makes them looked up at the new socket,
whatever the prior contents of the map. -/
lemma lookup_register_self (m : Registry) (u c : Nat) :
    lookup (register m u c) u = some c := by
  induction m with
  | nil => simp [register, lookup]
  | cons p rest ih =>
    by_cases hp : p.1 = u
    · simp [register, lookup, hp]
    · by_cases hrest : rest.any (fun q => q.1 = u)
      · have : register (p :: rest) u c =
            p :: rest.map (fun q => if q.1 = u then (u, c) else q) := by
          simp [register, hp, hrest]
        rw [this]
        have ih' := ih
        rw [register, if_pos hrest] at ih'
        simpa [lookup, List.find?_cons, hp] using ih'
      · have : register (p :: rest) u c = p :: (rest ++ [(u, c)]) := by
          simp [register, hp, hrest]
        rw [this]
        have ih' := ih
        rw [register, if_neg hrest] at ih'
        simpa [lookup, List.find?_cons, hp] using ih'

/-- Unregistering a socket different from the one a user is mapped to
leaves that user's lookup unchanged. -/
lemma lookup_unregister_ne (m : Registry) (u v s : Nat)
    (hl : lookup m u = some v) (hvs : v ≠ s) :
    lookup (unregister m s) u = some v := by
  induction m with
  | nil => simp [lookup] at hl
  | cons p rest ih =>
    by_cases hps : p.2 = s
    · rw [unregister, if_pos hps]
      by_cases hpu : p.1 = u
      · exfalso
        apply hvs
        have : some p.2 = some v := by
          simpa [lookup, List.find?_cons, hpu] using hl
        rw [← hps]
        exact (Option.some_injective _ this).symm
      · simpa [lookup, List.find?_cons, hpu] using hl
    · rw [unregister, if_neg hps]
      by_cases hpu : p.1 = u
      · simpa [lookup, List.find?_cons, hpu] using hl
      · have hl' : lookup rest u = some v := by
          simpa [lookup, List.find?_cons, hpu] using hl
        simpa [lookup, List.find?_cons, hpu] using ih hl'

/-- Claim C2: registering a connection overwrites any prior mapping for
the same user (last-connection-wins); unregistering removes a user's
mapping only when their currently-registered socket is the closing one —
so after registering `c1` then `c2` for `u`, closing `c1` leaves `u`
mapped to `c2` — and connecting user `A` then user `B` and then
disconnecting `A`'s socket leaves the online snapshot equal to `[B]`. -/
theorem C2_presence_registry (m : Registry) (u c c1 c2 A B sa sb : Nat)
    (hc : c1 ≠ c2) (hAB : A ≠ B) :
    lookup (register m u c) u = some c ∧
    lookup (unregister (register (register m u c1) u c2) c1) u = some c2 ∧
    snapshot (unregister
      (handleConnect (handleConnect [] (some A) sa) (some B) sb) sa) = [B] := by
  refine ⟨lookup_register_self m u c, ?_, ?_⟩
  · exact lookup_unregister_ne _ u c2 c1 (lookup_register_self _ u c2)
      (Ne.symm hc)
  · have h1 : handleConnect [] (some A) sa = [(A, sa)] := by
      simp [handleConnect, register]
    have h2 : handleConnect [(A, sa)] (some B) sb = [(A, sa), (B, sb)] := by
      simp [handleConnect, register, hAB]
    rw [h1, h2]
    simp [unregister, snapshot]

/-- Witness for C2 at a concrete instance. -/
theorem C2_presence_registry_witness :
    lookup (register [(9, 100)] 7 3) 7 = some 3 ∧
    lookup (unregister (register (register [(9, 100)] 7 1) 7 2) 1) 7 = some 2 ∧
    snapshot (unregister
      (handleConnect (handleConnect [] (some 4) 40) (some 5) 50) 40) = [5] :=
  C2_presence_registry [(9, 100)] 7 3 1 2 4 5 40 50
    (by decide) (by decide)

/-- Claim C5: the send route responds 400 (validation error) exactly when
the request body has no message or its trimmed value is empty, and in
that case the store — conversations and messages alike — is left
untouched. -/
theorem C5_send_validation (st : Store) (s r : Nat)
    (body : Option String) (now : Nat) :
    ((sendMessage st s r body now).1.status = 400 ↔
      (body = none ∨ ∃ b, body = some b ∧ jsTrim b = "")) ∧
    ((sendMessage st s r body now).1.status = 400 →
      (sendMessage st s r body now).2 = st) := by
  cases body with
  | none => simp [sendMessage, SendResult.status]
  | some b =>
    by_cases h : jsTrim b = "" <;>
      simp [sendMessage, h, SendResult.status]

/-- Witness for C5: a whitespace-only body is rejected with 400 and the
store is unchanged; a real body is not rejected. -/
theorem C5_send_validation_witness :
    ((sendMessage ⟨[], [], 0⟩ 1 2 (some "   ") 9).1.status = 400 ∧
      (sendMessage ⟨[], [], 0⟩ 1 2 (some "   ") 9).2 = ⟨[], [], 0⟩) ∧
    ¬ (sendMessage ⟨[], [], 0⟩ 1 2 (some "hi") 9).1.status = 400 := by
  constructor
  · have h := C5_send_validation ⟨[], [], 0⟩ 1 2 (some "   ") 9
    have h400 : (sendMessage ⟨[], [], 0⟩ 1 2 (some "   ") 9).1.status = 400 :=
      h.1.mpr (Or.inr ⟨"   ", rfl, by decide⟩)
    exact ⟨h400, h.2 h400⟩
  · have h := C5_send_validation ⟨[], [], 0⟩ 1 2 (some "hi") 9
    intro hc
    rcases h.1.mp hc with h' | ⟨b, hb, hb'⟩
    · exact Option.noConfusion h'
    · have : b = "hi" := by
        exact (Option.some_injective _ hb).symm
      rw [this] at hb'
      exact absurd hb' (by decide)

/-- Claim C7: the bulk read-mark is idempotent — applying it twice to the
same store equals applying it once — and it rewrites exactly the unread
messages of the conversation addressed to the receiver, touching nothing
else in the store. -/
theorem C7_markRead_idempotent (st : Store) (c r : Nat) :
    markRead (markRead st c r) c r = markRead st c r ∧
    (markRead st c r).messages = st.messages.map (fun m =>
      if m.conversationId = c ∧ m.receiverId = r ∧ m.isRead = false
      then { m with isRead := true } else m) ∧
    (markRead st c r).conversations = st.conversations ∧
    (markRead st c r).nextId = st.nextId := by
  refine ⟨?_, ?_, rfl, rfl⟩
  · have : (markRead st c r).messages.map (fun m =>
        if m.conversationId = c && m.receiverId = r && m.isRead = false
        then { m with isRead := true } else m) = (markRead st c r).messages := by
      show (st.messages.map _).map _ = st.messages.map _
      rw [List.map_map]
      apply List.map_congr_left
      intro m _
      by_cases h1 : m.conversationId = c <;>
        by_cases h2 : m.receiverId = r <;>
        by_cases h3 : m.isRead = false <;>
        simp [h1, h2, h3]
    show Store.mk _ _ _ = Store.mk _ _ _
    rw [Store.mk.injEq]
    exact ⟨rfl, this, rfl⟩
  · apply List.map_congr_left
    intro m _
    by_cases h1 : m.conversationId = c <;>
      by_cases h2 : m.receiverId = r <;>
      by_cases h3 : m.isRead = false <;>
      simp [h1, h2, h3]

/-- Claim C8: a typing event pushes `{senderId, isTyping}` to the
receiver's socket exactly when the receiver is registered, a read-receipt
event pushes `{messageId, readBy}` to the original sender's socket
exactly when that sender is registered, and neither handler ever raises
or changes the store or the registry (offline target: no push at all). -/
theorem C8_relay_offline_silent (st : Store) (m : Registry)
    (s r : Nat) (b : Bool) (mid rb : Nat) :
    (handleTyping st m s r b).1 =
      (lookup m r).map (fun sid => (sid, TypingPayload.mk s b)) ∧
    (handleTyping st m s r b).2 = (st, m) ∧
    (handleMessageRead st m s mid rb).1 =
      (lookup m s).map (fun sid => (sid, ReadReceiptPayload.mk mid rb)) ∧
    (handleMessageRead st m s mid rb).2 = (st, m) := by
  refine ⟨?_, ?_, ?_, ?_⟩
  · cases h : lookup m r <;> simp [handleTyping, h]
  · cases h : lookup m r <;> simp [handleTyping, h]
  · cases h : lookup m s <;> simp [handleMessageRead, h]
  · cases h : lookup m s <;> simp [handleMessageRead, h]

/-- With duplicate-free message ids (Mongo generates unique ids),
looking a member up by its id finds exactly that member. -/
lemma find?_id_of_mem (l : List Msg) (m : Msg)
    (hnd : (l.map Msg.id).Nodup) (hm : m ∈ l) :
    l.find? (fun x => x.id = m.id) = some m := by
  induction l with
  | nil => cases hm
  | cons a t ih =>
    rw [List.map_cons, List.nodup_cons] at hnd
    by_cases ha : a.id = m.id
    · have hma : m = a := by
        rcases List.mem_cons.mp hm with h | h
        · exact h
        · exact absurd (ha ▸ List.mem_map_of_mem Msg.id h) hnd.1
      simp [List.find?_cons, ha, hma]
    · have hmt : m ∈ t := by
        rcases List.mem_cons.mp hm with h | h
        · exact absurd (congrArg Msg.id h.symm) ha
        · exact h
      simpa [List.find?_cons, ha] using ih hnd.2 hmt

/-- Every message object a thread fetch returns is a document of the
store the fetch read (the store BEFORE its read-marking update). -/
lemma fetchThread_resp_subset (st : Store) (v o : Nat) :
    ∀ x ∈ (fetchThread st v o).1, x ∈ st.messages := by
  intro x hx
  cases h : findConversation st v o with
  | none => simp [fetchThread, h] at hx
  | some conv =>
    simp only [fetchThread, h] at hx
    rcases List.mem_filterMap.mp hx with ⟨i, _, hfi⟩
    exact List.mem_of_find?_eq_some hfi

/-- Claim C4: fetching a thread when no conversation matches the pair
returns the empty list with the store untouched (a 200 response, not an
error); when a conversation is found, the fetch leaves conversations and
the id counter alone and rewrites exactly the stored messages of that
conversation with sender `o`, receiver `v` and `isRead = false` to
`isRead = true`. -/
theorem C4_fetchThread_markread (st : Store) (v o : Nat) :
    (findConversation st v o = none → fetchThread st v o = ([], st)) ∧
    (∀ conv, findConversation st v o = some conv →
      (fetchThread st v o).2.conversations = st.conversations ∧
      (fetchThread st v o).2.nextId = st.nextId ∧
      (fetchThread st v o).2.messages = st.messages.map (fun m =>
        if m.conversationId = conv.id ∧ m.senderId = o ∧ m.receiverId = v ∧
           m.isRead = false
        then { m with isRead := true } else m)) := by
  constructor
  · intro h
    simp [fetchThread, h]
  · intro conv h
    refine ⟨by simp [fetchThread, h], by simp [fetchThread, h], ?_⟩
    simp only [fetchThread, h]
    apply List.map_congr_left
    intro m _
    by_cases h1 : m.conversationId = conv.id <;>
      by_cases h2 : m.senderId = o <;>
      by_cases h3 : m.receiverId = v <;>
      by_cases h4 : m.isRead = false <;>
      simp [h1, h2, h3, h4]

/-- A concrete store with one conversation holding one unread message
from user 2 to user 1, used by several witnesses. -/
def wStore : Store :=
  ⟨[⟨0, [1, 2], [5], some 5, 3⟩], [⟨5, 2, 1, "yo", 0, false⟩], 6⟩

/-- Witness for C4: no conversation gives `([], st)`; on `wStore` the
fetch marks the one matching message read. -/
theorem C4_fetchThread_markread_witness :
    fetchThread (⟨[], [], 0⟩ : Store) 1 2 = ([], ⟨[], [], 0⟩) ∧
    (fetchThread wStore 1 2).2.messages = wStore.messages.map (fun m =>
      if m.conversationId = 0 ∧ m.senderId = 2 ∧ m.receiverId = 1 ∧
         m.isRead = false
      then { m with isRead := true } else m) :=
  ⟨(C4_fetchThread_markread ⟨[], [], 0⟩ 1 2).1 rfl,
    ((C4_fetchThread_markread wStore 1 2).2
      ⟨0, [1, 2], [5], some 5, 3⟩ (by decide)).2.2⟩

/-- Claim C3: deleting a missing message responds 404 with the store
unchanged; deleting someone else's message responds 403 with the store
unchanged; a successful delete removes the message document, pulls its
id from the owning conversation's message list, and any thread fetch on
the resulting store never returns a message with the deleted id. -/
theorem C3_deleteMessage (st : Store) (mid r : Nat) :
    ((∀ m ∈ st.messages, m.id ≠ mid) →
      deleteMessage st mid r = (DeleteResult.notFound, st) ∧
      DeleteResult.notFound.status = 404) ∧
    (∀ m, st.messages.find? (fun x => x.id = mid) = some m →
      m.senderId ≠ r →
      deleteMessage st mid r = (DeleteResult.forbidden, st) ∧
      DeleteResult.forbidden.status = 403) ∧
    (∀ m, st.messages.find? (fun x => x.id = mid) = some m →
      m.senderId = r →
      (deleteMessage st mid r).1 = DeleteResult.ok ∧
      (∀ x ∈ (deleteMessage st mid r).2.messages, x.id ≠ mid) ∧
      (∀ c ∈ (deleteMessage st mid r).2.conversations,
        c.id = m.conversationId → mid ∉ c.messages) ∧
      (∀ v o, ∀ x ∈ (fetchThread (deleteMessage st mid r).2 v o).1,
        x.id ≠ mid)) := by
  refine ⟨?_, ?_, ?_⟩
  · intro h
    have hnone : st.messages.find? (fun x => x.id = mid) = none := by
      rw [List.find?_eq_none]
      intro m hm
      simpa using h m hm
    exact ⟨by simp [deleteMessage, hnone], rfl⟩
  · intro m hm hne
    exact ⟨by simp [deleteMessage, hm, hne], rfl⟩
  · intro m hm heq
    have hres : deleteMessage st mid r =
        (DeleteResult.ok,
          ⟨st.conversations.map (fun c =>
              if c.id = m.conversationId
              then { c with messages := c.messages.filter (fun i => i ≠ mid) }
              else c),
            st.messages.filter (fun x => x.id ≠ mid), st.nextId⟩) := by
      simp [deleteMessage, hm, heq]
    have hmsgs : ∀ x ∈ (deleteMessage st mid r).2.messages, x.id ≠ mid := by
      intro x hx
      rw [hres] at hx
      exact of_decide_eq_true (List.mem_filter.mp hx).2
    refine ⟨by rw [hres], hmsgs, ?_, ?_⟩
    · intro c hc hcid
      rw [hres] at hc
      rcases List.mem_map.mp hc with ⟨c0, _, hc0⟩
      by_cases h0 : c0.id = m.conversationId
      · rw [if_pos h0] at hc0
        rw [← hc0]
        intro hmem
        exact of_decide_eq_true (List.mem_filter.mp hmem).2 rfl
      · rw [if_neg h0] at hc0
        rw [← hc0] at hcid
        exact absurd hcid h0
    · intro v o x hx
      exact hmsgs x (fetchThread_resp_subset _ v o x hx)

/-- Witness for C3: on `wStore`, deleting an absent id gives 404,
deleting user 2's message as user 1 gives 403 with the store unchanged,
and user 2 deleting it succeeds and scrubs id 5 everywhere. -/
theorem C3_deleteMessage_witness :
    (deleteMessage wStore 99 2 = (DeleteResult.notFound, wStore)) ∧
    (deleteMessage wStore 5 1 = (DeleteResult.forbidden, wStore)) ∧
    (deleteMessage wStore 5 2).1 = DeleteResult.ok ∧
    (∀ c ∈ (deleteMessage wStore 5 2).2.conversations,
      c.id = 0 → (5 : Nat) ∉ c.messages) := by
  refine ⟨((C3_deleteMessage wStore 99 2).1 (by decide)).1,
    ((C3_deleteMessage wStore 5 1).2.1 ⟨5, 2, 1, "yo", 0, false⟩
      (by decide) (by decide)).1,
    ((C3_deleteMessage wStore 5 2).2.2 ⟨5, 2, 1, "yo", 0, false⟩
      (by decide) rfl).1,
    ((C3_deleteMessage wStore 5 2).2.2 ⟨5, 2, 1, "yo", 0, false⟩
      (by decide) rfl).2.2.1⟩

/-- When a conversation is found, the thread response is its message-id
list resolved against the pre-update message collection. -/
lemma fetchThread_resp_of_found (st : Store) (v o : Nat)
    (conv : Conversation) (h : findConversation st v o = some conv) :
    (fetchThread st v o).1 = conv.messages.filterMap
      (fun mid => st.messages.find? (fun m => m.id = mid)) := by
  simp [fetchThread, h]

/-- Claim C9: a thread fetch builds its response from the store as it was
before its own read-marking update — every returned object is a stored
document of the pre-fetch store, and a message to the viewer that was
unread when the fetch started is returned as-is (hence with
`isRead = false`) even though the post-fetch store already holds it with
`isRead = true`; the immediately following fetch returns it read. -/
theorem C9_response_precedes_readmark (st : Store) (v o : Nat)
    (conv : Conversation) (msg : Msg)
    (hnd : (st.messages.map Msg.id).Nodup)
    (hfind : findConversation st v o = some conv)
    (hmem : msg ∈ st.messages) (hid : msg.id ∈ conv.messages)
    (hconv : msg.conversationId = conv.id)
    (hsend : msg.senderId = o) (hrecv : msg.receiverId = v)
    (hunread : msg.isRead = false) :
    (∀ x ∈ (fetchThread st v o).1, x ∈ st.messages) ∧
    msg ∈ (fetchThread st v o).1 ∧
    { msg with isRead := true } ∈ (fetchThread st v o).2.messages ∧
    { msg with isRead := true } ∈ (fetchThread (fetchThread st v o).2 v o).1 := by
  have hresp := fetchThread_resp_of_found st v o conv hfind
  have hst2 : (fetchThread st v o).2.messages = st.messages.map
      (fun m =>
        if m.conversationId = conv.id && m.senderId = o &&
           m.receiverId = v && m.isRead = false
        then { m with isRead := true } else m) := by
    simp [fetchThread, hfind]
  have hconvs : (fetchThread st v o).2.conversations = st.conversations := by
    simp [fetchThread, hfind]
  have hmem2 : { msg with isRead := true } ∈ (fetchThread st v o).2.messages := by
    rw [hst2]
    refine List.mem_map.mpr ⟨msg, hmem, ?_⟩
    simp [hconv, hsend, hrecv, hunread]
  refine ⟨fetchThread_resp_subset st v o, ?_, hmem2, ?_⟩
  · rw [hresp]
    exact List.mem_filterMap.mpr ⟨msg.id, hid, find?_id_of_mem _ msg hnd hmem⟩
  · have hnd2 : ((fetchThread st v o).2.messages.map Msg.id).Nodup := by
      rw [hst2]
      rw [List.map_map]
      have : st.messages.map (Msg.id ∘ fun m =>
          if m.conversationId = conv.id && m.senderId = o &&
             m.receiverId = v && m.isRead = false
          then { m with isRead := true } else m) = st.messages.map Msg.id := by
        apply List.map_congr_left
        intro a _
        simp only [Function.comp_apply]
        split <;> rfl
      rw [this]
      exact hnd
    have hfind2 : findConversation (fetchThread st v o).2 v o = some conv := by
      unfold findConversation
      rw [hconvs]
      exact hfind
    rw [fetchThread_resp_of_found (fetchThread st v o).2 v o conv hfind2]
    refine List.mem_filterMap.mpr ⟨msg.id, hid, ?_⟩
    exact find?_id_of_mem _ { msg with isRead := true } hnd2 hmem2

/-- Witness for C9 on `wStore`: the fetch that marks message 5 read still
returns it unread; the next fetch returns it read. -/
theorem C9_response_precedes_readmark_witness :
    (⟨5, 2, 1, "yo", 0, false⟩ : Msg) ∈ (fetchThread wStore 1 2).1 ∧
    (⟨5, 2, 1, "yo", 0, true⟩ : Msg) ∈
      (fetchThread (fetchThread wStore 1 2).2 1 2).1 := by
  have h := C9_response_precedes_readmark wStore 1 2
    ⟨0, [1, 2], [5], some 5, 3⟩ ⟨5, 2, 1, "yo", 0, false⟩
    (by decide) (by decide) (by decide) (by decide) rfl rfl rfl rfl
  exact ⟨h.2.1, h.2.2.2⟩

/-- Claim C10: a successful delete leaves every conversation's id,
`lastMessage`, `lastMessageTime` and participants untouched (only the
`messages` lists change); in particular, deleting the conversation's most
recent message leaves `lastMessage` still pointing at the deleted id
while the id is gone from the message list. -/
theorem C10_delete_preserves_lastMessage (st : Store) (mid uid : Nat)
    (m : Msg)
    (hfind : st.messages.find? (fun x => x.id = mid) = some m)
    (hsender : m.senderId = uid) :
    (deleteMessage st mid uid).1 = DeleteResult.ok ∧
    (deleteMessage st mid uid).2.conversations.map (fun c =>
        (c.id, c.lastMessage, c.lastMessageTime, c.participants)) =
      st.conversations.map (fun c =>
        (c.id, c.lastMessage, c.lastMessageTime, c.participants)) ∧
    (∀ c ∈ st.conversations, c.id = m.conversationId →
      c.lastMessage = some mid →
      ∃ c2 ∈ (deleteMessage st mid uid).2.conversations,
        c2.id = c.id ∧ c2.lastMessage = some mid ∧ mid ∉ c2.messages) := by
  have hres : deleteMessage st mid uid =
      (DeleteResult.ok,
        ⟨st.conversations.map (fun c =>
            if c.id = m.conversationId
            then { c with messages := c.messages.filter (fun i => i ≠ mid) }
            else c),
          st.messages.filter (fun x => x.id ≠ mid), st.nextId⟩) := by
    simp [deleteMessage, hfind, hsender]
  refine ⟨by rw [hres], ?_, ?_⟩
  · rw [hres]
    show (st.conversations.map _).map _ = _
    rw [List.map_map]
    apply List.map_congr_left
    intro c _
    by_cases h : c.id = m.conversationId <;> simp [Function.comp, h]
  · intro c hc hcid hlast
    refine ⟨{ c with messages := c.messages.filter (fun i => i ≠ mid) },
      ?_, rfl, hlast, ?_⟩
    · rw [hres]
      refine List.mem_map.mpr ⟨c, hc, ?_⟩
      simp [hcid]
    · intro hmem
      exact of_decide_eq_true (List.mem_filter.mp hmem).2 rfl

/-- Witness for C10 on `wStore`: message 5 is the last message of
conversation 0; after user 2 deletes it, the conversation still has
`lastMessage = some 5` while its message list no longer contains 5. -/
theorem C10_delete_preserves_lastMessage_witness :
    (deleteMessage wStore 5 2).1 = DeleteResult.ok ∧
    ∃ c2 ∈ (deleteMessage wStore 5 2).2.conversations,
      c2.id = 0 ∧ c2.lastMessage = some 5 ∧ (5 : Nat) ∉ c2.messages := by
  have h := C10_delete_preserves_lastMessage wStore 5 2
    ⟨5, 2, 1, "yo", 0, false⟩ (by decide) rfl
  exact ⟨h.1, h.2.2 ⟨0, [1, 2], [5], some 5, 3⟩ (by decide) rfl rfl⟩

/-- A store holding a single group conversation whose participants are
users 1, 2 and 3 (the Conversation schema supports group chats via
`isGroup`/`groupName`/`groupAdmin`; such documents are valid store
states) and no conversation whose participant set is a pair. -/
def groupStore : Store := ⟨[⟨0, [1, 2, 3], [], none, 0⟩], [], 10⟩

/-- Counterexample to claim C1: in `groupStore` no conversation has
participant set `{1, 2}` (each one has a participant outside the pair),
yet sending from 1 to 2 creates NO conversation — the `$all` lookup of
`router.post("/send/:id")` matches the group conversation because it
merely requires the participants array to CONTAIN both ids, and the new
message lands inside that group conversation. -/
theorem C1_counterexample_group_match :
    (∀ c ∈ groupStore.conversations, ∃ x ∈ c.participants,
      x ∉ ([1, 2] : List Nat)) ∧
    findConversation groupStore 1 2 = some ⟨0, [1, 2, 3], [], none, 0⟩ ∧
    (sendMessage groupStore 1 2 (some "hi") 5).2.conversations.length =
      groupStore.conversations.length ∧
    (∀ c ∈ (sendMessage groupStore 1 2 (some "hi") 5).2.conversations,
      c.participants = [1, 2, 3]) ∧
    (sendMessage groupStore 1 2 (some "hi") 5).1 =
      SendResult.ok ⟨10, 1, 2, "hi", 0, false⟩ := by
  decide

/-- Claim C1 as amended: the lookup step of the send route matches any
conversation whose participants CONTAIN both sender and receiver (a
group conversation containing both also matches); when no stored
conversation contains both, the send creates exactly one conversation —
appended to the store, with participants exactly the pair, message list
exactly the one new message, and last-message pointer at it — and
persists exactly that one new message. -/
theorem C1_send_creates_conversation (st : Store) (s r : Nat)
    (b : String) (now : Nat)
    (hb : jsTrim b ≠ "")
    (hnone : ∀ c ∈ st.conversations,
      ¬(s ∈ c.participants ∧ r ∈ c.participants))
    (hfresh : ∀ c ∈ st.conversations, c.id ≠ st.nextId) :
    sendMessage st s r (some b) now =
      (SendResult.ok ⟨st.nextId + 1, s, r, jsTrim b, st.nextId, false⟩,
        ⟨st.conversations ++
            [⟨st.nextId, [s, r], [st.nextId + 1], some (st.nextId + 1), now⟩],
          st.messages ++ [⟨st.nextId + 1, s, r, jsTrim b, st.nextId, false⟩],
          st.nextId + 2⟩) := by
  have hfind : findConversation st s r = none := by
    rw [findConversation, List.find?_eq_none]
    intro c hc
    simp only [matchesAll, Bool.and_eq_true]
    rintro ⟨h1, h2⟩
    exact hnone c hc
      ⟨List.mem_of_elem_eq_true h1, List.mem_of_elem_eq_true h2⟩
  have hmapid : ∀ c2 : Conversation, c2.id = st.nextId →
      st.conversations.map (fun x => if x.id = st.nextId then c2 else x) =
        st.conversations := by
    intro c2 _
    conv_rhs => rw [← List.map_id st.conversations]
    apply List.map_congr_left
    intro c hc
    simp [hfresh c hc]
  simp only [sendMessage, hfind, hb, if_neg, ite_false, saveConversation,
    List.map_append]
  rw [Prod.mk.injEq]
  refine ⟨rfl, ?_⟩
  rw [Store.mk.injEq]
  refine ⟨?_, rfl, rfl⟩
  rw [hmapid _ rfl]
  simp

/-- Witness for the amended C1: sending "hi" from 1 to 2 into an empty
store creates exactly one conversation `[1, 2]` holding exactly the one
new message. -/
theorem C1_send_creates_conversation_witness :
    sendMessage (⟨[], [], 0⟩ : Store) 1 2 (some "hi") 7 =
      (SendResult.ok ⟨1, 1, 2, "hi", 0, false⟩,
        ⟨[⟨0, [1, 2], [1], some 1, 7⟩], [⟨1, 1, 2, "hi", 0, false⟩], 2⟩) := by
  have h := C1_send_creates_conversation ⟨[], [], 0⟩ 1 2 "hi" 7
    (by decide) (by simp) (by simp)
  simpa using h

/-- In a conversation list with duplicate-free ids, replacing the found
conversation (matched by id) with an update that still satisfies the
search predicate makes the update the new `find?` result. -/
lemma find?_map_update (l : List Conversation) (c0 c1 : Conversation)
    (p : Conversation → Bool)
    (hfind : l.find? p = some c0)
    (hnd : (l.map Conversation.id).Nodup)
    (hid : c1.id = c0.id) (hp : p c1 = true) :
    (l.map (fun x => if x.id = c0.id then c1 else x)).find? p = some c1 := by
  induction l with
  | nil => cases hfind
  | cons a t ih =>
    rw [List.map_cons, List.nodup_cons] at hnd
    by_cases hpa : p a = true
    · rw [List.find?_cons_of_pos _ hpa] at hfind
      obtain rfl : a = c0 := Option.some_injective _ hfind
      rw [List.map_cons, if_pos rfl, List.find?_cons_of_pos _ hp]
    · rw [List.find?_cons_of_neg _ hpa] at hfind
      have hat : a.id ≠ c0.id := by
        intro h
        exact hnd.1 (h ▸ List.mem_map_of_mem Conversation.id
          (List.mem_of_find?_eq_some hfind))
      rw [List.map_cons, if_neg hat, List.find?_cons_of_neg _ hpa]
      exact ih hfind hnd.2

/-- Replacing a conversation by an update with the same id leaves the
list of stored conversation ids unchanged. -/
lemma map_update_ids (l : List Conversation) (c0 c1 : Conversation)
    (hid : c1.id = c0.id) :
    (l.map (fun x => if x.id = c0.id then c1 else x)).map Conversation.id =
      l.map Conversation.id := by
  rw [List.map_map]
  apply List.map_congr_left
  intro a _
  simp only [Function.comp_apply]
  by_cases h : a.id = c0.id
  · rw [if_pos h, hid, h]
  · rw [if_neg h]

/-- Shifting a range by one: enumerating `n + 1` offsets from `a` is `a`
followed by `n` offsets from `a + 1`. -/
lemma range_map_add_succ (a n : Nat) :
    (List.range (n + 1)).map (fun i => a + i) =
      a :: (List.range n).map (fun i => a + 1 + i) := by
  rw [List.range_succ_eq_map, List.map_cons, List.map_map]
  congr 1
  apply List.map_congr_left
  intro i _
  simp only [Function.comp_apply]
  omega

/-- One send into a found conversation: appends the new message document,
rewrites the conversation in place (message id appended, last-message
pointer and timestamp updated) and bumps the id counter. -/
lemma sendMessage_found_step (st : Store) (s r : Nat) (b : String)
    (now : Nat) (c0 : Conversation)
    (hb : jsTrim b ≠ "") (hfind : findConversation st s r = some c0) :
    (sendMessage st s r (some b) now).2 =
      ⟨st.conversations.map (fun x => if x.id = c0.id then
          { c0 with messages := c0.messages ++ [st.nextId],
                    lastMessage := some st.nextId,
                    lastMessageTime := now } else x),
        st.messages ++ [⟨st.nextId, s, r, jsTrim b, c0.id, false⟩],
        st.nextId + 1⟩ := by
  simp only [sendMessage, hfind, hb, if_neg, ite_false, saveConversation]

/-- Invariant for iterated sends into a found conversation: the found
conversation keeps its identity and participants, accumulates the ids
`st.nextId, st.nextId + 1, …` in order, and its last-message pointer
tracks the most recently assigned id. -/
lemma sendN_spec (bodies : List String) (st : Store) (s r now : Nat)
    (c0 : Conversation)
    (hb : ∀ b ∈ bodies, jsTrim b ≠ "")
    (hfind : findConversation st s r = some c0)
    (hnd : (st.conversations.map Conversation.id).Nodup) :
    ∃ c1, findConversation (sendN st s r now bodies) s r = some c1 ∧
      c1.id = c0.id ∧
      c1.participants = c0.participants ∧
      c1.messages = c0.messages ++
        (List.range bodies.length).map (fun i => st.nextId + i) ∧
      c1.lastMessage = (if bodies.length = 0 then c0.lastMessage
        else some (st.nextId + bodies.length - 1)) ∧
      (sendN st s r now bodies).nextId = st.nextId + bodies.length ∧
      ((sendN st s r now bodies).conversations.map Conversation.id).Nodup := by
  induction bodies generalizing st c0 with
  | nil =>
    refine ⟨c0, hfind, rfl, rfl, by simp, by simp, by simp [sendN], ?_⟩
    simpa [sendN] using hnd
  | cons b rest ih =>
    have hb0 : jsTrim b ≠ "" := hb b (List.mem_cons_self b rest)
    have hstep := sendMessage_found_step st s r b now c0 hb0 hfind
    have hconvs : (sendMessage st s r (some b) now).2.conversations =
        st.conversations.map (fun x => if x.id = c0.id then
          { c0 with messages := c0.messages ++ [st.nextId],
                    lastMessage := some st.nextId,
                    lastMessageTime := now } else x) := by
      rw [hstep]
    have hnext : (sendMessage st s r (some b) now).2.nextId =
        st.nextId + 1 := by
      rw [hstep]
    have hp0 : matchesAll c0 s r = true := by
      have h' : st.conversations.find? (fun c => matchesAll c s r) =
          some c0 := hfind
      have h2 := List.find?_some h'
      exact h2
    have hfind2 : findConversation (sendMessage st s r (some b) now).2 s r =
        some { c0 with messages := c0.messages ++ [st.nextId],
                       lastMessage := some st.nextId,
                       lastMessageTime := now } := by
      unfold findConversation
      rw [hconvs]
      exact find?_map_update st.conversations c0 _ _ hfind hnd rfl hp0
    have hnd2 : (((sendMessage st s r (some b) now).2.conversations).map
        Conversation.id).Nodup := by
      rw [hconvs, map_update_ids st.conversations c0
        { c0 with messages := c0.messages ++ [st.nextId],
                  lastMessage := some st.nextId,
                  lastMessageTime := now } rfl]
      exact hnd
    obtain ⟨c1, hf1, hid1, hpart1, hmsgs1, hlast1, hnext1, hnd1⟩ :=
      ih _ _ (fun x hx => hb x (List.mem_cons_of_mem b hx)) hfind2 hnd2
    simp only [sendN, List.length_cons]
    refine ⟨c1, hf1, by rw [hid1], by rw [hpart1], ?_, ?_, ?_, hnd1⟩
    · rw [hmsgs1, hnext]
      show (c0.messages ++ [st.nextId]) ++ _ = _
      rw [List.append_assoc, range_map_add_succ st.nextId rest.length]
      rfl
    · rw [hlast1, hnext]
      by_cases h0 : rest.length = 0
      · simp [h0]
      · rw [if_neg h0, if_neg (Nat.succ_ne_zero rest.length)]
        congr 1
        omega
    · rw [hnext1, hnext]
      omega

/-- Claim C6: sending `N` messages into an existing conversation (the
one the `$all` lookup finds) grows its message list from length `L` to
`L + N`, appending exactly the `N` freshly assigned message ids in
order, and leaves the last-message pointer at the `N`-th (latest)
message's id. -/
theorem C6_sendN_append_length (st : Store) (s r now : Nat)
    (c0 : Conversation) (bodies : List String)
    (hb : ∀ b ∈ bodies, jsTrim b ≠ "") (hne : bodies ≠ [])
    (hfind : findConversation st s r = some c0)
    (hnd : (st.conversations.map Conversation.id).Nodup) :
    ∃ c1, findConversation (sendN st s r now bodies) s r = some c1 ∧
      c1.id = c0.id ∧
      c1.messages.length = c0.messages.length + bodies.length ∧
      c1.messages = c0.messages ++
        (List.range bodies.length).map (fun i => st.nextId + i) ∧
      c1.lastMessage = some (st.nextId + bodies.length - 1) := by
  obtain ⟨c1, h1, h2, _, h4, h5, _, _⟩ :=
    sendN_spec bodies st s r now c0 hb hfind hnd
  refine ⟨c1, h1, h2, ?_, h4, ?_⟩
  · rw [h4]
    simp
  · rw [h5, if_neg]
    simpa [List.length_eq_zero] using hne

/-- Witness for C6 on `wStore`: two sends into conversation 0 (already
holding one message) leave it with three message ids `[5, 6, 7]` and the
last-message pointer at 7. -/
theorem C6_sendN_append_length_witness :
    ∃ c1, findConversation (sendN wStore 1 2 9 ["a", "b"]) 1 2 = some c1 ∧
      c1.id = 0 ∧
      c1.messages.length = 1 + 2 ∧
      c1.messages = [5] ++ (List.range 2).map (fun i => 6 + i) ∧
      c1.lastMessage = some (6 + 2 - 1) := by
  have h := C6_sendN_append_length wStore 1 2 9 ⟨0, [1, 2], [5], some 5, 3⟩
    ["a", "b"] (by decide) (by decide) (by decide) (by decide)
  simpa using h
